import Mathlib

/-!
Verification of the go-tuf-metadata client core against its specification.

This file gives a shallow embedding of the repository's metadata model and
client workflow (package `metadata` and package `updater`) and settles the
frozen claims about it.  Go maps are modelled as association lists (with an
explicit iteration-order parameter where the code iterates a map), Go `int`
and `int64` values as `Int`, byte strings as `List Nat`, and fallible code as
`Except` / explicit result types.  Cryptographic primitives and the canonical
JSON encoder are external collaborators of the repository and are abstracted
as parameters, as the spec prescribes.
-/

namespace GoTUF

/-- Byte strings (Go `[]byte`), one `Nat` per byte. -/
abbrev Bytes := List Nat

/-- Association-list model of a Go `map[string]α` (entries in insertion order). -/
abbrev AList (α : Type) := List (String × α)

/-- Lookup in an association-list map; `none` models a missing key. -/
def lookupA {α : Type} (m : AList α) (k : String) : Option α :=
  match m with
  | [] => none
  | (k', v) :: rest => if k' = k then some v else lookupA rest k

/-- Insert-or-overwrite in an association-list map (Go `m[k] = v`). -/
def setA {α : Type} (m : AList α) (k : String) (v : α) : AList α :=
  match m with
  | [] => [(k, v)]
  | (k', v') :: rest => if k' = k then (k', v) :: rest else (k', v') :: setA rest k v

/-- Role-tag and version constants from the `metadata` package. -/
def ROOT : String := "root"

/-- Role tag for timestamp metadata. -/
def TIMESTAMP : String := "timestamp"

/-- Role tag for snapshot metadata. -/
def SNAPSHOT : String := "snapshot"

/-- Role tag for targets metadata. -/
def TARGETS : String := "targets"

/-- Key type constant `KeyTypeEd25519`. -/
def KeyTypeEd25519 : String := "ed25519"

/-- Fixed specification-version string embedded in every document. -/
def SPECIFICATION_VERSION : String := "1.0.31"

/-- Error kinds of the `metadata` package (messages abstracted away). -/
inductive MErr
  | errValue
  | errType
  | errUnsignedMetadata
  | errLengthOrHashMismatch
  | errUnmarshal
  deriving DecidableEq, Repr

/-- The `Hashes` type: map from algorithm name to (hex) digest. Digests are
modelled abstractly as the strings the abstract hash functions produce. -/
abbrev Hashes := AList String

/-- A single signature entry (`Signature` struct): key id and signature bytes
(modelled as a string; the empty string is the Go zero value). -/
structure Signature where
  KeyID : String
  Sig : String
  deriving DecidableEq, Repr

/-- A public key (`Key` struct): type, scheme and public key material. -/
structure Key where
  keytype : String
  scheme : String
  public : String
  deriving DecidableEq, Repr

/-- A top-level role entry (`Role` struct): key ids and threshold. -/
structure Role where
  KeyIDs : List String
  Threshold : Int
  deriving DecidableEq, Repr

/-- A `MetaFiles` entry of timestamp/snapshot metadata. -/
structure MetaFiles where
  Version : Int
  Length : Int
  Hashes : Hashes
  deriving DecidableEq, Repr

/-- A `TargetFiles` descriptor: length, hashes and path. -/
structure TargetFiles where
  Length : Int
  Hashes : Hashes
  Path : String
  deriving DecidableEq, Repr

/-- A delegated role entry (`DelegatedRole` struct). -/
structure DelegatedRole where
  Name : String
  KeyIDs : List String
  Threshold : Int
  Paths : List String
  PathHashPrefixes : List String
  Terminating : Bool
  deriving DecidableEq, Repr

/-- The `Delegations` struct: key store and ordered list of delegated roles. -/
structure Delegations where
  Keys : AList Key
  Roles : List DelegatedRole
  deriving DecidableEq, Repr

/-- The signed body of root metadata (`RootType`). The `_type` field is named
`Type_` because `Type` is reserved in Lean; `Expires` models the UTC instant
as an integer. -/
structure RootType where
  Type_ : String
  SpecVersion : String
  Version : Int
  Expires : Int
  Keys : AList Key
  Roles : AList Role
  ConsistentSnapshot : Bool
  deriving DecidableEq, Repr

/-- The signed body of snapshot metadata (`SnapshotType`). -/
structure SnapshotType where
  Type_ : String
  SpecVersion : String
  Version : Int
  Expires : Int
  Meta : AList MetaFiles
  deriving DecidableEq, Repr

/-- The signed body of timestamp metadata (`TimestampType`). -/
structure TimestampType where
  Type_ : String
  SpecVersion : String
  Version : Int
  Expires : Int
  Meta : AList MetaFiles
  deriving DecidableEq, Repr

/-- The signed body of targets metadata (`TargetsType`); `Delegations` is a
nullable pointer in Go, hence `Option`. -/
structure TargetsType where
  Type_ : String
  SpecVersion : String
  Version : Int
  Expires : Int
  Targets : AList TargetFiles
  Delegations : Option Delegations
  deriving DecidableEq, Repr

/-- The generic metadata envelope `Metadata[T]`. -/
structure Metadata (T : Type) where
  Signed : T
  Signatures : List Signature
  deriving DecidableEq, Repr

/-! ## Integrity checks (`metadata` package, §4.2 of the spec) -/

/-- The normative `verifyLength` of the `metadata` package: `io.Copy` over a
`bytes.Reader` always succeeds and yields exactly `len(data)` bytes, so the
function fails with `ErrLengthOrHashMismatch` exactly when the count differs
from the declared length. -/
def verifyLength (data : Bytes) (length : Int) : Except MErr Unit :=
  if length ≠ (data.length : Int) then .error .errLengthOrHashMismatch else .ok ()

/-- The stub `verifyLength` in `src/metadata/helpers.go`: a TODO that always
succeeds. -/
def helpersVerifyLength (_data : Bytes) (_length : Int) : Except MErr Unit :=
  .ok ()

/-- The stub `verifyHashes` in `src/metadata/helpers.go`: a TODO that always
succeeds. -/
def helpersVerifyHashes (_data : Bytes) (_hashes : Hashes) : Except MErr Unit :=
  .ok ()

/-- The normative `verifyHashes` of the `metadata` package, parametrised by the
abstract hash functions (sha256/sha512 are external crypto primitives).  For
each `(algo, digest)` entry: an unknown algorithm or a digest mismatch fails
with `ErrLengthOrHashMismatch`.  Go iterates the map in unspecified order; the
result on the association list is order-independent up to which failing entry
is reported, and the error kind is the same either way. -/
def verifyHashes (sha256 sha512 : Bytes → String) (data : Bytes) (hashes : Hashes) :
    Except MErr Unit :=
  match hashes with
  | [] => .ok ()
  | (k, v) :: rest =>
    match k with
    | "sha256" =>
      if v ≠ sha256 data then .error .errLengthOrHashMismatch
      else verifyHashes sha256 sha512 data rest
    | "sha512" =>
      if v ≠ sha512 data then .error .errLengthOrHashMismatch
      else verifyHashes sha256 sha512 data rest
    | _ => .error .errLengthOrHashMismatch

/-- `MetaFiles.VerifyLengthHashes`: hashes and length are optional for
`MetaFiles` — the hash check runs only when the hashes map is non-empty and the
length check only when the declared length is non-zero. -/
def MetaFiles.VerifyLengthHashes (sha256 sha512 : Bytes → String) (f : MetaFiles)
    (data : Bytes) : Except MErr Unit := do
  if f.Hashes.length > 0 then
    verifyHashes sha256 sha512 data f.Hashes
  if f.Length ≠ 0 then
    verifyLength data f.Length

/-- `TargetFiles.VerifyLengthHashes`: unconditionally runs `verifyHashes` and
then `verifyLength` on the declared values. -/
def TargetFiles.VerifyLengthHashes (sha256 sha512 : Bytes → String) (f : TargetFiles)
    (data : Bytes) : Except MErr Unit := do
  verifyHashes sha256 sha512 data f.Hashes
  verifyLength data f.Length

/-! ## Download-length selection in `loadTargets` / `loadSnapshot` (§4.4) -/

/-- Download byte cap computed by `loadTargets` (updater package): the snippet
`length := metaInfo.Length; if length != 0 { length = TargetsMaxLength }`. -/
def loadTargetsDownloadLength (metaInfoLength cfgTargetsMaxLength : Int) : Int :=
  if metaInfoLength ≠ 0 then cfgTargetsMaxLength else metaInfoLength

/-- Download byte cap computed by `loadSnapshot` (updater package): the snippet
`length := snapshotMeta.Length; if length == 0 { length = SnapshotMaxLength }`. -/
def loadSnapshotDownloadLength (snapshotMetaLength cfgSnapshotMaxLength : Int) : Int :=
  if snapshotMetaLength = 0 then cfgSnapshotMaxLength else snapshotMetaLength

/-! ## Claim C8 -/

/-- Success characterisation of the normative `verifyLength`. -/
theorem verifyLength_ok (data : Bytes) (l : Int) :
    verifyLength data l = .ok () ↔ (data.length : Int) = l := by
  rw [verifyLength]
  by_cases h : l = (data.length : Int) <;> simp [h, eq_comm]

/-- Success characterisation of `verifyLength`, stated with both equations in
the orientation `simp` produces. -/
theorem verifyLength_ok_symm (data : Bytes) (l : Int) :
    (Except.ok () = verifyLength data l) ↔ l = (data.length : Int) :=
  ⟨fun h => ((verifyLength_ok data l).1 h.symm).symm,
   fun h => ((verifyLength_ok data l).2 h.symm).symm⟩

/-- Failure characterisation of the normative `verifyLength`. -/
theorem verifyLength_error (data : Bytes) (l : Int) :
    verifyLength data l = .error .errLengthOrHashMismatch ↔ (data.length : Int) ≠ l := by
  rw [verifyLength]
  by_cases h : l = (data.length : Int) <;> simp [h, eq_comm]

/-- C8: the normative `verifyLength` of the metadata package fails with
`ErrLengthOrHashMismatch` exactly when the byte count of `data` differs from
the expected length, and succeeds otherwise; the helpers-file stub instead
always succeeds. -/
theorem claim_C8_verifyLength : ∀ (data : Bytes) (length : Int),
    (verifyLength data length = .error .errLengthOrHashMismatch ↔ (data.length : Int) ≠ length) ∧
    (verifyLength data length = .ok () ↔ (data.length : Int) = length) ∧
    helpersVerifyLength data length = .ok () := by
  intro data length
  exact ⟨verifyLength_error data length, verifyLength_ok data length, rfl⟩

/-! ## Claim C3 -/

/-- C3 counterexample: a `TargetFiles` value with an empty hashes map is *not*
rejected by `TargetFiles.VerifyLengthHashes` — the hash loop runs zero times
and only the length check remains, so on matching length the call succeeds,
contradicting the claim that an empty hashes map is a hard error for target
files. -/
theorem claim_C3_counterexample :
    TargetFiles.VerifyLengthHashes (fun _ => "") (fun _ => "")
      { Length := 0, Hashes := [], Path := "f.txt" } [] = .ok () := by
  rfl

/-- C3 (amended): an empty hashes map means "no hash check" for both
`MetaFiles.VerifyLengthHashes` and `TargetFiles.VerifyLengthHashes`; the
difference is only that `MetaFiles` skips the length check when the declared
length is zero, while `TargetFiles` always enforces the length check. -/
theorem claim_C3_theorem : ∀ (sha256 sha512 : Bytes → String) (data : Bytes)
    (f : MetaFiles) (tf : TargetFiles),
    f.Hashes = [] → tf.Hashes = [] →
    (MetaFiles.VerifyLengthHashes sha256 sha512 f data = .ok () ↔
      (f.Length = 0 ∨ f.Length = (data.length : Int))) ∧
    (TargetFiles.VerifyLengthHashes sha256 sha512 tf data = .ok () ↔
      tf.Length = (data.length : Int)) := by
  intro sha256 sha512 data f tf hf htf
  constructor
  · by_cases h0 : f.Length = 0 <;>
      simp [MetaFiles.VerifyLengthHashes, hf, h0, bind, Except.bind, pure, Except.pure]
    exact (verifyLength_ok data f.Length).trans eq_comm
  · simp [TargetFiles.VerifyLengthHashes, htf, verifyHashes, bind, Except.bind]
    exact (verifyLength_ok data tf.Length).trans eq_comm

/-- C3 witness: the amended statement instantiated at a concrete input
(`MetaFiles` with length 2 on a 2-byte string, `TargetFiles` with length 2). -/
theorem claim_C3_witness :
    (MetaFiles.VerifyLengthHashes (fun _ => "a") (fun _ => "b")
        { Version := 1, Length := 2, Hashes := [] } [7, 8] = .ok () ↔
      ((2 : Int) = 0 ∨ (2 : Int) = (([7, 8] : Bytes).length : Int))) ∧
    (TargetFiles.VerifyLengthHashes (fun _ => "a") (fun _ => "b")
        { Length := 2, Hashes := [], Path := "p" } [7, 8] = .ok () ↔
      (2 : Int) = (([7, 8] : Bytes).length : Int)) :=
  claim_C3_theorem (fun _ => "a") (fun _ => "b") [7, 8]
    { Version := 1, Length := 2, Hashes := [] }
    { Length := 2, Hashes := [], Path := "p" } rfl rfl

/-! ## Claim C7 -/

/-- C7: evaluation of the download-cap selection of `loadTargets` at a
snapshot meta entry with recorded length 5 and `TargetsMaxLength` 100: the
code uses 100 (and uses 0 when the recorded length is 0), while the claim —
and the pattern `loadSnapshot` actually implements — requires 5 (resp. the
configured maximum). -/
theorem claim_C7_theorem :
    loadTargetsDownloadLength 5 100 = 100 ∧
    loadTargetsDownloadLength 0 100 = 0 ∧
    loadSnapshotDownloadLength 5 100 = 5 ∧
    loadSnapshotDownloadLength 0 100 = 100 := by
  refine ⟨rfl, rfl, rfl, rfl⟩

/-! ## Path matching and delegation lookup (`metadata` package) -/

/-- Modelled from the spec: shell-style glob matching of Go's
`path/filepath.Match` (standard library, an external collaborator of the
repository): `*` matches any possibly empty run of non-separator characters,
`?` matches one non-separator character, any other character matches itself.
Character classes and escapes are not used by the repository or the claims and
are not modelled.  The fuel argument of the worker strictly exceeds the sum of
the remaining lengths, so the out-of-fuel case is unreachable. -/
def globMatchFuel : Nat → List Char → List Char → Bool
  | 0, _, _ => false
  | _ + 1, [], s => s.isEmpty
  | fuel + 1, c :: ps, s =>
    if c = '*' then
      globMatchFuel fuel ps s ||
        (match s with
         | [] => false
         | x :: xs => decide (x ≠ '/') && globMatchFuel fuel ('*' :: ps) xs)
    else
      match s with
      | [] => false
      | x :: xs =>
        (if c = '?' then decide (x ≠ '/') else decide (c = x)) && globMatchFuel fuel ps xs

/-- Glob matching `filepath.Match(pattern, name)` with adequate fuel. -/
def filepathMatch (pattern name : String) : Bool :=
  globMatchFuel (pattern.length + name.length + 1) pattern.toList name.toList

/-- `DelegatedRole.IsDelegatedPath` exactly as in the source: a non-empty
`PathHashPrefixes` yields "no match" (succinct roles unimplemented); otherwise
the function returns inside the first loop iteration, so only the *first*
pattern of `Paths` is consulted, and the call is `filepath.Match(targetFilepath,
pathPattern)`, passing the target path in the pattern position (arguments
swapped relative to `filepath.Match(pattern, name)`). -/
def DelegatedRole.IsDelegatedPath (role : DelegatedRole) (targetFilepath : String) : Bool :=
  if role.PathHashPrefixes.length > 0 then false
  else
    match role.Paths with
    | [] => false
    | pathPattern :: _ => filepathMatch targetFilepath pathPattern

/-- The claim's (spec §4.4.1) semantics of delegated-path matching, stated for
comparison with the source function: true iff at least one pattern in `paths`
glob-matches the target path (pattern matched against the path), with
`path_hash_prefixes` unimplemented ("no match"). -/
def specIsDelegatedPath (role : DelegatedRole) (targetFilepath : String) : Bool :=
  if role.PathHashPrefixes.length > 0 then false
  else role.Paths.any (fun pathPattern => filepathMatch pathPattern targetFilepath)

/-- `Delegations.GetRolesForTarget`: names and terminating status of all
delegated roles responsible for `targetFilepath`, built by iterating `Roles`
in declaration order into a Go map (modelled as insert-or-overwrite on an
association list).  The `err == nil` guard of the source is always satisfied
because the modelled matcher is total. -/
def Delegations.GetRolesForTarget (role : Delegations) (targetFilepath : String) :
    AList Bool :=
  role.Roles.foldl
    (fun res r =>
      if r.IsDelegatedPath targetFilepath then setA res r.Name r.Terminating else res)
    []

/-! ## Claim C5 -/

/-- A delegated role trusted for `dir1/*` and (literally) `dir2/data`. -/
def roleC5 : DelegatedRole :=
  { Name := "role-A", KeyIDs := ["k1"], Threshold := 1,
    Paths := ["dir1/*", "dir2/data"], PathHashPrefixes := [], Terminating := false }

/-- C5: evaluation of `IsDelegatedPath` at the failing inputs.  The target
`dir1/foo` lies under the role's first pattern `dir1/*` and `dir2/data` equals
its second pattern, so the claimed any-pattern glob semantics yields true for
both; the source function returns false for both, because it passes the target
path as the pattern (so `dir1/foo` is matched *against* `dir1/*` and fails)
and returns on the first pattern without consulting `dir2/data`. -/
theorem claim_C5_theorem :
    DelegatedRole.IsDelegatedPath roleC5 "dir1/foo" = false ∧
    specIsDelegatedPath roleC5 "dir1/foo" = true ∧
    DelegatedRole.IsDelegatedPath roleC5 "dir2/data" = false ∧
    specIsDelegatedPath roleC5 "dir2/data" = true := by
  refine ⟨by decide, by decide, by decide, by decide⟩

/-! ## The `loadRoot` rotation loop (`updater` package) -/

/-- Outcome of one `fetcher.DownloadFile` call, as `loadRoot` discriminates it:
successful bytes, an `ErrDownloadHTTP` with its status code, or any other
download error. -/
inductive DownloadResult
  | success (data : Bytes)
  | httpErr (statusCode : Int)
  | otherErr
  deriving DecidableEq, Repr

/-- The version loop of `loadRoot`.  `nextVersion` is the version requested in
the current iteration and `k` the number of remaining iterations (the Go loop
runs `nextVersion = lowerBound .. upperBound` inclusive).  `download` abstracts
`downloadMetadata(ROOT, RootMaxLength, nextVersion)`, `updateRoot` abstracts
`trusted.UpdateRoot` (returning the new trusted state on success), `persist`
abstracts `persistMetadata`.  Returns the requested versions in order and the
ok/error outcome: a 404/403 HTTP status breaks the loop without error, any
other download failure or a failed update/persist aborts with the error. -/
def loadRootLoop {σ : Type} (download : Int → DownloadResult)
    (updateRoot : σ → Bytes → Option σ) (persist : Bytes → Bool) :
    σ → Int → Nat → List Int × Except Unit Unit
  | _, _, 0 => ([], .ok ())
  | st, nextVersion, k + 1 =>
    match download nextVersion with
    | .httpErr s =>
      if s ≠ 404 ∧ s ≠ 403 then ([nextVersion], .error ()) else ([nextVersion], .ok ())
    | .otherErr => ([nextVersion], .error ())
    | .success data =>
      match updateRoot st data with
      | none => ([nextVersion], .error ())
      | some st' =>
        if persist data then
          let r := loadRootLoop download updateRoot persist st' (nextVersion + 1) k
          (nextVersion :: r.1, r.2)
        else ([nextVersion], .error ())

/-- `loadRoot`: `lowerBound = trusted.Root.Signed.Version + 1`, `upperBound =
lowerBound + MaxRootRotations`, and the loop visits every integer of
`[lowerBound, upperBound]` — that is `MaxRootRotations + 1` iterations (none
when negative). -/
def loadRoot {σ : Type} (download : Int → DownloadResult)
    (updateRoot : σ → Bytes → Option σ) (persist : Bytes → Bool) (st : σ)
    (trustedRootVersion maxRootRotations : Int) : List Int × Except Unit Unit :=
  loadRootLoop download updateRoot persist st (trustedRootVersion + 1)
    (maxRootRotations + 1).toNat

/-- Last element of a cons list with non-empty tail. -/
theorem getLast?_cons_of_ne_nil {α : Type} (a : α) {l : List α} (h : l ≠ []) :
    (a :: l).getLast? = l.getLast? := by
  cases l with
  | nil => exact absurd rfl h
  | cons b t => simp [List.getLast?_cons_cons]

/-- Prepending the start of a contiguous run. -/
theorem range_map_shift (next : Int) (j : Nat) :
    (List.range (j + 1)).map (fun i : Nat => next + (i : Int))
      = next :: (List.range j).map (fun i : Nat => (next + 1) + (i : Int)) := by
  rw [List.range_succ_eq_map]
  simp only [List.map_cons, List.map_map, Nat.cast_zero, add_zero, List.cons.injEq, true_and]
  apply List.map_congr_left
  intro a _
  simp [Function.comp, Nat.succ_eq_add_one]
  ring

/-- Shape of the requested-version list and outcome behaviour of the
`loadRoot` loop: the requests form a contiguous increasing run starting at
`next` of length at most the remaining iteration count, and the result is
determined at the last requested version: HTTP 404/403 stops without error,
any other HTTP status and non-HTTP download failures abort with the error. -/
theorem loadRootLoop_spec {σ : Type} (download : Int → DownloadResult)
    (updateRoot : σ → Bytes → Option σ) (persist : Bytes → Bool) :
    ∀ (k : Nat) (st : σ) (next : Int),
    (∃ j : Nat, j ≤ k ∧
      (loadRootLoop download updateRoot persist st next k).1
        = (List.range j).map (fun i : Nat => next + (i : Int))) ∧
    (∀ n, (loadRootLoop download updateRoot persist st next k).1.getLast? = some n →
      ((∃ s, download n = .httpErr s ∧ (s = 404 ∨ s = 403)) →
        (loadRootLoop download updateRoot persist st next k).2 = .ok ()) ∧
      (download n = .otherErr →
        (loadRootLoop download updateRoot persist st next k).2 = .error ()) ∧
      (∀ s, download n = .httpErr s → s ≠ 404 → s ≠ 403 →
        (loadRootLoop download updateRoot persist st next k).2 = .error ())) := by
  intro k
  induction k with
  | zero =>
    intro st next
    refine ⟨⟨0, Nat.le_refl 0, rfl⟩, ?_⟩
    intro n hn
    simp [loadRootLoop] at hn
  | succ k ih =>
    intro st next
    cases hdl : download next with
    | httpErr s =>
      by_cases hs : s ≠ 404 ∧ s ≠ 403
      · refine ⟨⟨1, by omega, by simp [loadRootLoop, hdl, hs, List.range_succ]⟩, ?_⟩
        intro n hn
        have hr : (loadRootLoop download updateRoot persist st next (k + 1)).1 = [next] := by
          simp [loadRootLoop, hdl, hs]
        rw [hr] at hn
        simp only [List.getLast?_singleton, Option.some.injEq] at hn
        subst hn
        refine ⟨?_, ?_, ?_⟩
        · rintro ⟨s', hs', hor⟩
          rw [hdl] at hs'
          simp only [DownloadResult.httpErr.injEq] at hs'
          subst hs'
          rcases hor with h4 | h3
          · exact absurd h4 hs.1
          · exact absurd h3 hs.2
        · intro h
          simp [loadRootLoop, hdl, hs]
        · intro s' h h4 h3
          simp [loadRootLoop, hdl, hs]
      · refine ⟨⟨1, by omega, by simp [loadRootLoop, hdl, hs, List.range_succ]⟩, ?_⟩
        intro n hn
        have hr : (loadRootLoop download updateRoot persist st next (k + 1)).1 = [next] := by
          simp [loadRootLoop, hdl, hs]
        rw [hr] at hn
        simp only [List.getLast?_singleton, Option.some.injEq] at hn
        subst hn
        refine ⟨?_, ?_, ?_⟩
        · intro _
          simp [loadRootLoop, hdl, hs]
        · intro h
          rw [hdl] at h
          simp at h
        · intro s' h h4 h3
          rw [hdl] at h
          simp only [DownloadResult.httpErr.injEq] at h
          have hor : s = 404 ∨ s = 403 := by tauto
          exfalso
          omega
    | otherErr =>
      refine ⟨⟨1, by omega, by simp [loadRootLoop, hdl, List.range_succ]⟩, ?_⟩
      intro n hn
      have hr : (loadRootLoop download updateRoot persist st next (k + 1)).1 = [next] := by
        simp [loadRootLoop, hdl]
      rw [hr] at hn
      simp only [List.getLast?_singleton, Option.some.injEq] at hn
      subst hn
      refine ⟨?_, ?_, ?_⟩
      · rintro ⟨s', hs', _⟩
        rw [hdl] at hs'
        simp at hs'
      · intro _
        simp [loadRootLoop, hdl]
      · intro s' h h4 h3
        rw [hdl] at h
        simp at h
    | success data =>
      cases hupd : updateRoot st data with
      | none =>
        refine ⟨⟨1, by omega, by simp [loadRootLoop, hdl, hupd, List.range_succ]⟩, ?_⟩
        intro n hn
        have hr : (loadRootLoop download updateRoot persist st next (k + 1)).1 = [next] := by
          simp [loadRootLoop, hdl, hupd]
        rw [hr] at hn
        simp only [List.getLast?_singleton, Option.some.injEq] at hn
        subst hn
        refine ⟨?_, ?_, ?_⟩
        · rintro ⟨s', hs', _⟩
          rw [hdl] at hs'
          simp at hs'
        · intro h
          rw [hdl] at h
          simp at h
        · intro s' h h4 h3
          rw [hdl] at h
          simp at h
      | some st' =>
        cases hp : persist data with
        | false =>
          refine ⟨⟨1, by omega, by simp [loadRootLoop, hdl, hupd, hp, List.range_succ]⟩, ?_⟩
          intro n hn
          have hr : (loadRootLoop download updateRoot persist st next (k + 1)).1 = [next] := by
            simp [loadRootLoop, hdl, hupd, hp]
          rw [hr] at hn
          simp only [List.getLast?_singleton, Option.some.injEq] at hn
          subst hn
          refine ⟨?_, ?_, ?_⟩
          · rintro ⟨s', hs', _⟩
            rw [hdl] at hs'
            simp at hs'
          · intro h
            rw [hdl] at h
            simp at h
          · intro s' h h4 h3
            rw [hdl] at h
            simp at h
        | true =>
          have hshape : loadRootLoop download updateRoot persist st next (k + 1)
              = (next :: (loadRootLoop download updateRoot persist st' (next + 1) k).1,
                 (loadRootLoop download updateRoot persist st' (next + 1) k).2) := by
            simp [loadRootLoop, hdl, hupd, hp]
          constructor
          · obtain ⟨j', hj', hrest⟩ := (ih st' (next + 1)).1
            refine ⟨j' + 1, by omega, ?_⟩
            rw [hshape, range_map_shift, hrest]
          · intro n hn
            rw [hshape] at hn
            by_cases hrest : (loadRootLoop download updateRoot persist st' (next + 1) k).1 = []
            · rw [hrest] at hn
              simp only [List.getLast?_singleton, Option.some.injEq] at hn
              subst hn
              refine ⟨?_, ?_, ?_⟩
              · rintro ⟨s', hs', _⟩
                rw [hdl] at hs'
                simp at hs'
              · intro h
                rw [hdl] at h
                simp at h
              · intro s' h h4 h3
                rw [hdl] at h
                simp at h
            · rw [getLast?_cons_of_ne_nil next hrest] at hn
              obtain ⟨h1, h2, h3⟩ := (ih st' (next + 1)).2 n hn
              rw [hshape]
              exact ⟨h1, h2, h3⟩

/-! ## Claim C4 -/

/-- C4 fixture: a server that always serves a verifiable root. -/
def dlAllC4 : Int → DownloadResult := fun _ => .success []

/-- C4 fixture: `UpdateRoot` always succeeds. -/
def updOkC4 : Unit → Bytes → Option Unit := fun _ _ => some ()

/-- C4 fixture: `persistMetadata` always succeeds. -/
def persistOkC4 : Bytes → Bool := fun _ => true

/-- C4 counterexample: with the trusted root at version 1, `MaxRootRotations
= 1` and a server that always serves a verifiable root, `loadRoot` requests
versions 2 **and** 3 — two download attempts, the second beyond
`v + MaxRootRotations` — contradicting the claimed bound of at most
`MaxRootRotations` attempts at versions `v+1 .. v+MaxRootRotations`. -/
theorem claim_C4_counterexample :
    (loadRoot dlAllC4 updOkC4 persistOkC4 () 1 1).1 = [2, 3] ∧
    ¬ ((loadRoot dlAllC4 updOkC4 persistOkC4 () 1 1).1.length ≤ 1 ∧
       ∀ n ∈ (loadRoot dlAllC4 updOkC4 persistOkC4 () 1 1).1, n ≤ 1 + 1) := by
  refine ⟨by decide, by decide⟩

/-- C4 (amended): for every fetcher, update and persist behaviour, trusted
root version `v` and configured `MaxRootRotations`, `loadRoot` requests a
contiguous increasing run of versions `v+1, v+2, …` of length at most
`MaxRootRotations + 1` (so it requests at most versions `v+1` through
`v + MaxRootRotations + 1`, in increasing order), stops the loop without
error when the download of the last requested version fails with HTTP 404 or
403, and aborts returning the error when it fails with any other HTTP status
or with a non-HTTP download error. -/
theorem claim_C4_theorem {σ : Type} (download : Int → DownloadResult)
    (updateRoot : σ → Bytes → Option σ) (persist : Bytes → Bool) (st : σ)
    (v maxR : Int) :
    (∃ j : Nat, j ≤ (maxR + 1).toNat ∧
      (loadRoot download updateRoot persist st v maxR).1
        = (List.range j).map (fun i : Nat => v + 1 + (i : Int))) ∧
    (∀ n, (loadRoot download updateRoot persist st v maxR).1.getLast? = some n →
      ((∃ s, download n = .httpErr s ∧ (s = 404 ∨ s = 403)) →
        (loadRoot download updateRoot persist st v maxR).2 = .ok ()) ∧
      (download n = .otherErr →
        (loadRoot download updateRoot persist st v maxR).2 = .error ()) ∧
      (∀ s, download n = .httpErr s → s ≠ 404 → s ≠ 403 →
        (loadRoot download updateRoot persist st v maxR).2 = .error ())) :=
  loadRootLoop_spec download updateRoot persist ((maxR + 1).toNat) st (v + 1)

/-- C4 fixture: a server that 404s on version 2. -/
def dlStopC4 : Int → DownloadResult := fun n => if n = 2 then .httpErr 404 else .success []

/-- C4 witness: the amended theorem applied at trusted version 1 and
`MaxRootRotations = 3` against a server that 404s on version 2: the loop stops
without error. -/
theorem claim_C4_witness :
    (loadRoot dlStopC4 updOkC4 persistOkC4 () 1 3).2 = .ok () :=
  ((claim_C4_theorem dlStopC4 updOkC4 persistOkC4 () 1 3).2 2 (by decide)).1
    ⟨404, by decide, Or.inl rfl⟩

/-! ## Signature threshold verification: `VerifyDelegate` (`metadata` package) -/

/-- Hash selected per key type inside `VerifyDelegate`: `crypto.Hash(0)` for
ed25519 keys and SHA-256 for every other key type. -/
inductive CryptoHash
  | hashZero
  | hashSHA256
  deriving DecidableEq, Repr

/-- The delegator receiver of `VerifyDelegate`.  Valid receivers are root and
targets metadata; any other receiver returns `ErrType` and is outside the
claims, so the receiver sum has two variants. -/
inductive Delegator
  | rootMeta (m : Metadata RootType)
  | targetsMeta (m : Metadata TargetsType)
  deriving DecidableEq, Repr

/-- The delegated-metadata argument of `VerifyDelegate` (one of the four role
types; the four switch arms of the source treat them identically). -/
inductive DelegatedMeta
  | rootM (m : Metadata RootType)
  | snapshotM (m : Metadata SnapshotType)
  | timestampM (m : Metadata TimestampType)
  | targetsM (m : Metadata TargetsType)
  deriving DecidableEq, Repr

/-- The signed payload of delegated metadata: `cjson.EncodeCanonical` of this
value is what signatures cover, so the abstract verifier receives it in place
of the canonical bytes. -/
inductive SignedAny
  | rootS (s : RootType)
  | snapshotS (s : SnapshotType)
  | timestampS (s : TimestampType)
  | targetsS (s : TargetsType)
  deriving DecidableEq, Repr

/-- Signed part of delegated metadata. -/
def DelegatedMeta.signedAny : DelegatedMeta → SignedAny
  | .rootM m => .rootS m.Signed
  | .snapshotM m => .snapshotS m.Signed
  | .timestampM m => .timestampS m.Signed
  | .targetsM m => .targetsS m.Signed

/-- Signature list of delegated metadata. -/
def DelegatedMeta.sigs : DelegatedMeta → List Signature
  | .rootM m => m.Signatures
  | .snapshotM m => m.Signatures
  | .timestampM m => m.Signatures
  | .targetsM m => m.Signatures

/-- Delegated metadata with extra signatures appended (used to state that
signatures by keys outside the role contribute nothing). -/
def DelegatedMeta.addSigs : DelegatedMeta → List Signature → DelegatedMeta
  | .rootM m, extra => .rootM { m with Signatures := m.Signatures ++ extra }
  | .snapshotM m, extra => .snapshotM { m with Signatures := m.Signatures ++ extra }
  | .timestampM m, extra => .timestampM { m with Signatures := m.Signatures ++ extra }
  | .targetsM m, extra => .targetsM { m with Signatures := m.Signatures ++ extra }

/-- Abstract signature verifier (`signature.LoadVerifier(...).VerifySignature`):
given the key, the selected hash, the signature bytes and the signed payload,
decide acceptance.  The cryptographic primitives are external collaborators of
the repository. -/
abbrev Verifier := Key → CryptoHash → String → SignedAny → Bool

/-- The signature collected for key id `v` in the `VerifyDelegate` loop: Go
scans the whole `Signatures` slice overwriting `sign` on every match, so the
last signature carrying that key id is used, and the zero `Signature` (empty
bytes) remains when none matches. -/
def sigForKeyID (sigs : List Signature) (v : String) : String :=
  sigs.foldl (fun acc s => if s.KeyID = v then s.Sig else acc) ""

/-- Result of the `(keys, roleKeyIDs, roleThreshold)` resolution switch at the
top of `VerifyDelegate`. -/
inductive CollectResult
  | collOk (keys : AList Key) (roleKeyIDs : List String) (roleThreshold : Int)
  | collErr (e : MErr)
  | collPanic
  deriving DecidableEq, Repr

/-- Resolution of `(keys, roleKeyIDs, roleThreshold)` by the delegator-type
switch of `VerifyDelegate`.  Root receiver: map lookup in `Signed.Roles`,
`ErrValue` when the role is absent.  Targets receiver: the source reads
`Signed.Delegations.Keys` before anything else, a nil-pointer dereference —
a panic — when `Delegations` is nil; otherwise the first delegated role with
the given name is taken (`break`) and the Go zero values (nil key ids,
threshold 0) remain when none matches. -/
def collectRoleInfo : Delegator → String → CollectResult
  | .rootMeta m, delegated_role =>
    match lookupA m.Signed.Roles delegated_role with
    | some role => .collOk m.Signed.Keys role.KeyIDs role.Threshold
    | none => .collErr .errValue
  | .targetsMeta m, delegated_role =>
    match m.Signed.Delegations with
    | none => .collPanic
    | some dl =>
      match dl.Roles.find? (fun v => v.Name == delegated_role) with
      | some v => .collOk dl.Keys v.KeyIDs v.Threshold
      | none => .collOk dl.Keys [] 0

/-- Outcome of `VerifyDelegate`: success, a returned error, or a nil-pointer
panic. -/
inductive VResult
  | vOk
  | vErr (e : MErr)
  | vPanic
  deriving DecidableEq, Repr

/-- The key-id loop of `VerifyDelegate`: for each key id of the role, look the
key up — a missing key id yields a nil `*Key`, and the subsequent
`ToPublicKey` call dereferences nil and panics (modelled from the spec: the
key-conversion file is not under `src/`, and Go nil-pointer method calls that
touch fields panic) — select the hash for the key type, fetch the (last)
signature with that key id and record the key id in the `signing_keys` set
when the verifier accepts.  Key conversion and verifier loading of present
keys are modelled as always succeeding. -/
def signingKeysLoop (verify : Verifier) (keys : AList Key) (dm : DelegatedMeta) :
    List String → List String → Option (List String)
  | [], acc => some acc
  | v :: rest, acc =>
    match lookupA keys v with
    | none => none
    | some key =>
      if verify key
          (if key.keytype ≠ KeyTypeEd25519 then CryptoHash.hashSHA256 else CryptoHash.hashZero)
          (sigForKeyID dm.sigs v) dm.signedAny then
        signingKeysLoop verify keys dm rest (if v ∈ acc then acc else acc ++ [v])
      else
        signingKeysLoop verify keys dm rest acc

/-- `Metadata.VerifyDelegate`: resolve the role, fail with `ErrValue` when the
role has no key ids ("no delegation found"), run the key-id loop, and fail
with `ErrUnsignedMetadata` when the number of distinct verified key ids is
strictly below the role threshold. -/
def VerifyDelegate (verify : Verifier) (meta : Delegator) (delegated_role : String)
    (delegated_metadata : DelegatedMeta) : VResult :=
  match collectRoleInfo meta delegated_role with
  | .collPanic => .vPanic
  | .collErr e => .vErr e
  | .collOk keys roleKeyIDs roleThreshold =>
    if roleKeyIDs.isEmpty then .vErr .errValue
    else
      match signingKeysLoop verify keys delegated_metadata roleKeyIDs [] with
      | none => .vPanic
      | some signing_keys =>
        if (signing_keys.length : Int) < roleThreshold then .vErr .errUnsignedMetadata
        else .vOk

/-- Whether the signature associated with role key id `v` verifies — the
claim's "signature over the canonical encoding of the delegated document
verifies", evaluated exactly as the loop evaluates it. -/
def verifiesForRole (verify : Verifier) (keys : AList Key) (dm : DelegatedMeta)
    (v : String) : Bool :=
  match lookupA keys v with
  | none => false
  | some key =>
    verify key
      (if key.keytype ≠ KeyTypeEd25519 then CryptoHash.hashSHA256 else CryptoHash.hashZero)
      (sigForKeyID dm.sigs v) dm.signedAny

/-- The number of distinct role key ids whose signature verifies. -/
def distinctVerifiedCount (verify : Verifier) (keys : AList Key) (dm : DelegatedMeta)
    (roleKeyIDs : List String) : Nat :=
  ((roleKeyIDs.filter (fun v => verifiesForRole verify keys dm v)).dedup).length

/-- Scanning signatures none of which carries key id `v` leaves the collected
signature unchanged. -/
theorem foldl_sig_no_match (v : String) :
    ∀ (l : List Signature) (init : String), (∀ s ∈ l, s.KeyID ≠ v) →
      l.foldl (fun acc s => if s.KeyID = v then s.Sig else acc) init = init := by
  intro l
  induction l with
  | nil => intro init _; rfl
  | cons s rest ih =>
    intro init h
    have hs : s.KeyID ≠ v := h s (List.mem_cons_self s rest)
    simp only [List.foldl_cons, if_neg hs]
    exact ih init (fun s' hs' => h s' (List.mem_cons_of_mem s hs'))

/-- Appending signatures whose key ids differ from `v` does not change the
signature collected for `v`. -/
theorem sigForKeyID_append (sigs extra : List Signature) (v : String)
    (h : ∀ s ∈ extra, s.KeyID ≠ v) :
    sigForKeyID (sigs ++ extra) v = sigForKeyID sigs v := by
  unfold sigForKeyID
  rw [List.foldl_append]
  exact foldl_sig_no_match v extra _ h

/-- Appending signatures appends to the signature list of every variant. -/
theorem addSigs_sigs (dm : DelegatedMeta) (extra : List Signature) :
    (dm.addSigs extra).sigs = dm.sigs ++ extra := by
  cases dm <;> rfl

/-- Appending signatures leaves the signed payload unchanged. -/
theorem addSigs_signedAny (dm : DelegatedMeta) (extra : List Signature) :
    (dm.addSigs extra).signedAny = dm.signedAny := by
  cases dm <;> rfl

/-- Extra signatures by keys outside the role's key ids do not change the
key-id loop. -/
theorem signingKeysLoop_addSigs (verify : Verifier) (keys : AList Key) (dm : DelegatedMeta)
    (extra : List Signature) :
    ∀ (kids acc : List String), (∀ s ∈ extra, s.KeyID ∉ kids) →
      signingKeysLoop verify keys (dm.addSigs extra) kids acc
        = signingKeysLoop verify keys dm kids acc := by
  intro kids
  induction kids with
  | nil => intro acc _; rfl
  | cons v rest ih =>
    intro acc h
    have hv : ∀ s ∈ extra, s.KeyID ≠ v := fun s hs he =>
      h s hs (he ▸ List.mem_cons_self v rest)
    have hsig : sigForKeyID (dm.addSigs extra).sigs v = sigForKeyID dm.sigs v := by
      rw [addSigs_sigs]
      exact sigForKeyID_append dm.sigs extra v hv
    have hrest : ∀ s ∈ extra, s.KeyID ∉ rest := fun s hs hm =>
      h s hs (List.mem_cons_of_mem v hm)
    cases hk : lookupA keys v with
    | none => simp [signingKeysLoop, hk]
    | some key =>
      have hih : ∀ a, signingKeysLoop verify keys (dm.addSigs extra) rest a
          = signingKeysLoop verify keys dm rest a := fun a => ih a hrest
      simp only [signingKeysLoop, hk, hsig, addSigs_signedAny, hih]

/-- When every role key id resolves in the key store, the key-id loop succeeds
and returns a duplicate-free list holding exactly the initial set plus the
verifying role key ids. -/
theorem signingKeysLoop_spec (verify : Verifier) (keys : AList Key) (dm : DelegatedMeta) :
    ∀ (kids acc : List String), (∀ v ∈ kids, (lookupA keys v).isSome) → acc.Nodup →
    ∃ out, signingKeysLoop verify keys dm kids acc = some out ∧ out.Nodup ∧
      (∀ x, x ∈ out ↔
        (x ∈ acc ∨ (x ∈ kids ∧ verifiesForRole verify keys dm x = true))) := by
  intro kids
  induction kids with
  | nil =>
    intro acc _ hacc
    exact ⟨acc, rfl, hacc, by simp⟩
  | cons v rest ih =>
    intro acc hall hacc
    obtain ⟨key, hkey⟩ := Option.isSome_iff_exists.mp (hall v (List.mem_cons_self v rest))
    have hrest : ∀ u ∈ rest, (lookupA keys u).isSome :=
      fun u hu => hall u (List.mem_cons_of_mem v hu)
    cases hvf : verify key
        (if key.keytype ≠ KeyTypeEd25519 then CryptoHash.hashSHA256 else CryptoHash.hashZero)
        (sigForKeyID dm.sigs v) dm.signedAny with
    | true =>
      have hpv : verifiesForRole verify keys dm v = true := by
        simp only [verifiesForRole, hkey]
        exact hvf
      by_cases hmem : v ∈ acc
      · obtain ⟨out, hout, hnd, hmemout⟩ := ih acc hrest hacc
        refine ⟨out, ?_, hnd, ?_⟩
        · simp only [signingKeysLoop, hkey, hvf, if_pos hmem]
          simpa using hout
        · intro x
          rw [hmemout x]
          constructor
          · rintro (hx | ⟨hx, hp⟩)
            · exact Or.inl hx
            · exact Or.inr ⟨List.mem_cons_of_mem v hx, hp⟩
          · rintro (hx | ⟨hx, hp⟩)
            · exact Or.inl hx
            · rcases List.mem_cons.mp hx with hx | hx
              · exact Or.inl (hx ▸ hmem)
              · exact Or.inr ⟨hx, hp⟩
      · have hacc2 : (acc ++ [v]).Nodup := by
          rw [List.nodup_append]
          exact ⟨hacc, List.nodup_singleton v,
            fun a ha hb => hmem ((List.mem_singleton.mp hb) ▸ ha)⟩
        obtain ⟨out, hout, hnd, hmemout⟩ := ih (acc ++ [v]) hrest hacc2
        refine ⟨out, ?_, hnd, ?_⟩
        · simp only [signingKeysLoop, hkey, hvf, if_neg hmem]
          simpa using hout
        · intro x
          rw [hmemout x]
          simp only [List.mem_append, List.mem_cons, List.not_mem_nil, or_false]
          constructor
          · rintro ((hx | hx) | ⟨hx, hp⟩)
            · exact Or.inl hx
            · exact Or.inr ⟨Or.inl hx, hx ▸ hpv⟩
            · exact Or.inr ⟨Or.inr hx, hp⟩
          · rintro (hx | ⟨hx | hx, hp⟩)
            · exact Or.inl (Or.inl hx)
            · exact Or.inl (Or.inr hx)
            · exact Or.inr ⟨hx, hp⟩
    | false =>
      have hpv : verifiesForRole verify keys dm v = false := by
        simp only [verifiesForRole, hkey]
        exact hvf
      obtain ⟨out, hout, hnd, hmemout⟩ := ih acc hrest hacc
      refine ⟨out, ?_, hnd, ?_⟩
      · simp only [signingKeysLoop, hkey, hvf]
        simpa using hout
      · intro x
        rw [hmemout x]
        simp only [List.mem_cons]
        constructor
        · rintro (hx | ⟨hx, hp⟩)
          · exact Or.inl hx
          · exact Or.inr ⟨Or.inr hx, hp⟩
        · rintro (hx | ⟨hx | hx, hp⟩)
          · exact Or.inl hx
          · exact absurd hp (by rw [hx, hpv]; exact Bool.false_ne_true)
          · exact Or.inr ⟨hx, hp⟩

/-- When every role key id resolves, the key-id loop computes exactly the
number of distinct verifying role key ids. -/
theorem signingKeysLoop_count (verify : Verifier) (keys : AList Key) (dm : DelegatedMeta)
    (kids : List String) (hkeys : ∀ v ∈ kids, (lookupA keys v).isSome) :
    ∃ out, signingKeysLoop verify keys dm kids [] = some out ∧
      out.length = distinctVerifiedCount verify keys dm kids := by
  obtain ⟨out, hout, hnd, hmem⟩ :=
    signingKeysLoop_spec verify keys dm kids [] hkeys List.nodup_nil
  refine ⟨out, hout, ?_⟩
  have h2 : ((kids.filter (fun v => verifiesForRole verify keys dm v)).dedup).Nodup :=
    List.nodup_dedup _
  have hperm : out.Perm ((kids.filter (fun v => verifiesForRole verify keys dm v)).dedup) := by
    rw [List.perm_ext_iff_of_nodup hnd h2]
    intro a
    rw [List.mem_dedup, List.mem_filter]
    have := hmem a
    simp only [List.not_mem_nil, false_or] at this
    exact this
  exact hperm.length_eq

/-! ## Claim C2 -/

/-- C2 fixture: a timestamp document signed under key id `k1`. -/
def tsMetaC2 : Metadata TimestampType :=
  { Signed := { Type_ := "timestamp", SpecVersion := SPECIFICATION_VERSION, Version := 1,
                Expires := 0,
                Meta := [("snapshot.json", { Version := 1, Length := 0, Hashes := [] })] },
    Signatures := [{ KeyID := "k1", Sig := "sig-ok" }] }

/-- C2 fixture: a verifier that rejects every signature. -/
def verifyRejectAll : Verifier := fun _ _ _ _ => false

/-- C2 fixture: a root document that delegates `timestamp` to a role entry
with an empty `key_ids` list and threshold 1. -/
def rootMetaC2c : Metadata RootType :=
  { Signed := { Type_ := "root", SpecVersion := SPECIFICATION_VERSION, Version := 1,
                Expires := 0, Keys := [],
                Roles := [("timestamp", { KeyIDs := [], Threshold := 1 })],
                ConsistentSnapshot := true },
    Signatures := [] }

/-- C2 counterexample: a root delegator whose `timestamp` role exists but has
an empty `key_ids` list.  Zero signatures verify, which is strictly below the
threshold 1, yet `VerifyDelegate` returns `ErrValue` ("no delegation found"),
not `ErrUnsignedMetadata` — falsifying the claimed equivalence at this
input. -/
theorem claim_C2_counterexample :
    VerifyDelegate verifyRejectAll (.rootMeta rootMetaC2c) "timestamp"
        (.timestampM tsMetaC2) = .vErr .errValue ∧
    ¬ (VerifyDelegate verifyRejectAll (.rootMeta rootMetaC2c) "timestamp"
          (.timestampM tsMetaC2) = .vErr .errUnsignedMetadata ↔
        (distinctVerifiedCount verifyRejectAll [] (.timestampM tsMetaC2) [] : Int) < 1) := by
  refine ⟨by decide, by decide⟩

/-- C2 (amended): for every delegator (root or targets) whose resolution of
`delegated_role` yields key store `keys`, key ids `kids` and threshold `th`,
provided the role's key-id list is non-empty (an empty list is reported as
`ErrValue`, "no delegation found") and every listed key id resolves in the
key store, `VerifyDelegate` fails with `ErrUnsignedMetadata` exactly when the
number of distinct role key ids whose signature verifies is strictly below
the threshold, succeeds otherwise, and appending signatures whose key ids are
not listed in the role changes nothing. -/
theorem claim_C2_theorem (verify : Verifier) (meta : Delegator) (delegated_role : String)
    (dm : DelegatedMeta) (keys : AList Key) (kids : List String) (th : Int)
    (hres : collectRoleInfo meta delegated_role = .collOk keys kids th)
    (hne : kids ≠ [])
    (hkeys : ∀ v ∈ kids, (lookupA keys v).isSome) :
    (VerifyDelegate verify meta delegated_role dm = .vErr .errUnsignedMetadata ↔
      (distinctVerifiedCount verify keys dm kids : Int) < th) ∧
    (VerifyDelegate verify meta delegated_role dm = .vOk ↔
      ¬ (distinctVerifiedCount verify keys dm kids : Int) < th) ∧
    (∀ extra : List Signature, (∀ s ∈ extra, s.KeyID ∉ kids) →
      VerifyDelegate verify meta delegated_role (dm.addSigs extra)
        = VerifyDelegate verify meta delegated_role dm) := by
  obtain ⟨out, hout, hlen⟩ := signingKeysLoop_count verify keys dm kids hkeys
  have hempty : kids.isEmpty = false := by
    cases kids with
    | nil => exact absurd rfl hne
    | cons a l => rfl
  have hVD : VerifyDelegate verify meta delegated_role dm
      = if (distinctVerifiedCount verify keys dm kids : Int) < th
          then .vErr .errUnsignedMetadata else .vOk := by
    simp only [VerifyDelegate, hres, hempty, Bool.false_eq_true, if_false, hout, hlen]
  refine ⟨?_, ?_, ?_⟩
  · rw [hVD]
    by_cases hc : (distinctVerifiedCount verify keys dm kids : Int) < th <;> simp [hc]
  · rw [hVD]
    by_cases hc : (distinctVerifiedCount verify keys dm kids : Int) < th <;> simp [hc]
  · intro extra hextra
    have hinv := signingKeysLoop_addSigs verify keys dm extra kids [] hextra
    simp only [VerifyDelegate, hres, hinv]

/-- C2 witness fixture: an ed25519 key. -/
def keyC2 : Key := { keytype := "ed25519", scheme := "ed25519", public := "pub1" }

/-- C2 witness fixture: a root document delegating `timestamp` to key `k1`
with threshold 1. -/
def rootMetaC2w : Metadata RootType :=
  { Signed := { Type_ := "root", SpecVersion := SPECIFICATION_VERSION, Version := 1,
                Expires := 0, Keys := [("k1", keyC2)],
                Roles := [("timestamp", { KeyIDs := ["k1"], Threshold := 1 })],
                ConsistentSnapshot := true },
    Signatures := [] }

/-- C2 witness fixture: a verifier accepting exactly the bytes `sig-ok`. -/
def verifySigOk : Verifier := fun _ _ s _ => s == "sig-ok"

/-- C2 witness: the amended theorem applied at a concrete root delegator with
one key of threshold 1 and a delegated timestamp carrying a verifying
signature. -/
theorem claim_C2_witness :
    VerifyDelegate verifySigOk (.rootMeta rootMetaC2w) "timestamp"
        (.timestampM tsMetaC2) = .vOk ↔
      ¬ (distinctVerifiedCount verifySigOk [("k1", keyC2)] (.timestampM tsMetaC2)
            ["k1"] : Int) < 1 :=
  (claim_C2_theorem verifySigOk (.rootMeta rootMetaC2w) "timestamp" (.timestampM tsMetaC2)
    [("k1", keyC2)] ["k1"] 1 (by decide) (by decide) (by decide)).2.1

/-! ## Claim C10 -/

/-- A role key id missing from the key store makes the key-id loop hit the nil
dereference, for any accumulator. -/
theorem signingKeysLoop_missing (verify : Verifier) (keys : AList Key) (dm : DelegatedMeta) :
    ∀ (kids acc : List String), (∃ v ∈ kids, lookupA keys v = none) →
      signingKeysLoop verify keys dm kids acc = none := by
  intro kids
  induction kids with
  | nil =>
    intro acc h
    obtain ⟨v, hv, _⟩ := h
    exact absurd hv (List.not_mem_nil v)
  | cons v0 rest ih =>
    intro acc h
    cases hk : lookupA keys v0 with
    | none => simp [signingKeysLoop, hk]
    | some key =>
      obtain ⟨v, hv, hnone⟩ := h
      have hvrest : v ∈ rest := by
        rcases List.mem_cons.mp hv with h1 | h1
        · rw [h1, hk] at hnone
          cases hnone
        · exact h1
      have hih : ∀ a, signingKeysLoop verify keys dm rest a = none :=
        fun a => ih a ⟨v, hvrest, hnone⟩
      simp [signingKeysLoop, hk, hih]

/-- C10: `VerifyDelegate` is not total at its public interface.  When the
resolved role lists a key id that is absent from the delegator's key store,
the loop calls `ToPublicKey` on the nil `*Key` and panics; and when the
receiver is a targets document whose `Delegations` pointer is nil, the very
first field access `Signed.Delegations.Keys` dereferences nil and panics.  In
neither case is an error value returned. -/
theorem claim_C10_theorem :
    (∀ (verify : Verifier) (meta : Delegator) (delegated_role : String) (dm : DelegatedMeta)
        (keys : AList Key) (kids : List String) (th : Int),
      collectRoleInfo meta delegated_role = .collOk keys kids th →
      (∃ v ∈ kids, lookupA keys v = none) →
      VerifyDelegate verify meta delegated_role dm = .vPanic) ∧
    (∀ (verify : Verifier) (t : Metadata TargetsType) (delegated_role : String)
        (dm : DelegatedMeta),
      t.Signed.Delegations = none →
      VerifyDelegate verify (.targetsMeta t) delegated_role dm = .vPanic) := by
  constructor
  · intro verify meta rn dm keys kids th hres hmiss
    have hempty : kids.isEmpty = false := by
      obtain ⟨v, hv, _⟩ := hmiss
      cases kids with
      | nil => exact absurd hv (List.not_mem_nil v)
      | cons a l => rfl
    simp only [VerifyDelegate, hres, hempty, Bool.false_eq_true, if_false,
      signingKeysLoop_missing verify keys dm kids [] hmiss]
  · intro verify t rn dm hdel
    simp [VerifyDelegate, collectRoleInfo, hdel]

/-- C10 witness fixture: a root document whose `snapshot` role lists key id
`kX` while the key store is empty. -/
def rootMetaC10 : Metadata RootType :=
  { Signed := { Type_ := "root", SpecVersion := SPECIFICATION_VERSION, Version := 1,
                Expires := 0, Keys := [],
                Roles := [("snapshot", { KeyIDs := ["kX"], Threshold := 1 })],
                ConsistentSnapshot := true },
    Signatures := [] }

/-- C10 witness fixture: a targets document with a nil `Delegations` pointer. -/
def targetsMetaC10 : Metadata TargetsType :=
  { Signed := { Type_ := "targets", SpecVersion := SPECIFICATION_VERSION, Version := 1,
                Expires := 0, Targets := [], Delegations := none },
    Signatures := [] }

/-- C10 witness: both panic scenarios at concrete inputs. -/
theorem claim_C10_witness :
    VerifyDelegate verifyRejectAll (.rootMeta rootMetaC10) "snapshot"
        (.timestampM tsMetaC2) = .vPanic ∧
    VerifyDelegate verifyRejectAll (.targetsMeta targetsMetaC10) "role-x"
        (.timestampM tsMetaC2) = .vPanic :=
  ⟨claim_C10_theorem.1 verifyRejectAll (.rootMeta rootMetaC10) "snapshot"
      (.timestampM tsMetaC2) [] ["kX"] 1 (by decide) ⟨"kX", by decide, by decide⟩,
   claim_C10_theorem.2 verifyRejectAll targetsMetaC10 "role-x" (.timestampM tsMetaC2) rfl⟩

/-! ## The delegation walk (`updater` package, §4.4.1) -/

/-- A `(role, parent)` pair on the traversal stack (`roleParentTuple`). -/
structure RoleParentTuple where
  Role : String
  Parent : String
  deriving DecidableEq, Repr

/-- Outcome of `preOrderDepthFirstWalk`: the target found in the current role,
the final "target not found" error (stack exhausted or delegation budget
spent), or an error propagated from `loadTargets`. -/
inductive WalkOutcome
  | found (t : TargetFiles)
  | notFound
  | loadErr
  deriving DecidableEq, Repr

/-- The stack produced by the child-collection block of the walk body.  Go
ranges over the `GetRolesForTarget` map and `break`s inside the first
iteration, so at most one (iteration-order dependent, abstracted by `pick`)
entry is appended, and the `delegationsToVisit = []` assignment sits *outside*
the `if terminating` check, so the existing stack is discarded whenever any
child matched.  When no child matched (or `Delegations` is nil) the popped
stack survives unchanged. -/
def childStack (rest : List RoleParentTuple) (currentRole targetFilePath : String)
    (pick : AList Bool → Option (String × Bool)) (deleg : Option Delegations) :
    List RoleParentTuple :=
  match deleg with
  | none => rest
  | some dl =>
    match pick (dl.GetRolesForTarget targetFilePath) with
    | none => rest
    | some (child, _terminating) => [{ Role := child, Parent := currentRole }]

/-- The child-collection block never grows the stack beyond the popped stack
plus one entry. -/
theorem childStack_length_le (rest : List RoleParentTuple) (currentRole targetFilePath)
    (pick : AList Bool → Option (String × Bool)) (deleg : Option Delegations) :
    (childStack rest currentRole targetFilePath pick deleg).length ≤ rest.length + 1 := by
  cases deleg with
  | none => simp [childStack]
  | some dl =>
    cases hp : pick (dl.GetRolesForTarget targetFilePath) with
    | none => simp [childStack, hp]
    | some c =>
      cases c with
      | mk child terminating => simp [childStack, hp]

/-- The loop of `preOrderDepthFirstWalk`.  `loadT role parent` abstracts
`loadTargets` (local-then-remote load and verification through the trusted
set); `pick` abstracts Go's unspecified map-iteration order, yielding the
first `range` entry of the `GetRolesForTarget` map, if any.  The stack keeps
its top at the head (Go pops at the slice end and appends the reversed child
list — the same discipline).  The loop runs while the visited set holds at
most `MaxDelegations` roles and the stack is non-empty; a visited role is
skipped (cycle guard); the role is loaded before its targets are inspected;
a hit returns immediately; otherwise the role is marked visited and the
children block runs.  The first component of the result lists every role
passed to `loadTargets`, in order. -/
def preOrderDepthFirstWalk (maxDelegations : Int)
    (loadT : String → String → Except Unit (Metadata TargetsType))
    (pick : AList Bool → Option (String × Bool)) (targetFilePath : String)
    (visited : List String) (stack : List RoleParentTuple) :
    List String × WalkOutcome :=
  if _h : (visited.length : Int) ≤ maxDelegations then
    match stack with
    | [] => ([], .notFound)
    | d :: rest =>
      if _hv : d.Role ∈ visited then
        preOrderDepthFirstWalk maxDelegations loadT pick targetFilePath visited rest
      else
        match loadT d.Role d.Parent with
        | .error _ => ([d.Role], .loadErr)
        | .ok targets =>
          match lookupA targets.Signed.Targets targetFilePath with
          | some target => ([d.Role], .found target)
          | none =>
            let r := preOrderDepthFirstWalk maxDelegations loadT pick targetFilePath
              (visited ++ [d.Role])
              (childStack rest d.Role targetFilePath pick targets.Signed.Delegations)
            (d.Role :: r.1, r.2)
  else ([], .notFound)
termination_by ((maxDelegations + 1).toNat - visited.length) + stack.length
decreasing_by
  · simp only [List.length_cons]
    omega
  · have hb := childStack_length_le rest d.Role targetFilePath pick targets.Signed.Delegations
    simp only [List.length_append, List.length_cons, List.length_singleton] at *
    omega

/-- The walk as driven by `GetTargetInfo`: empty visited set and the stack
initialised with `{role: "targets", parent: "root"}`. -/
def getTargetInfoWalk (maxDelegations : Int)
    (loadT : String → String → Except Unit (Metadata TargetsType))
    (pick : AList Bool → Option (String × Bool)) (targetFilePath : String) :
    List String × WalkOutcome :=
  preOrderDepthFirstWalk maxDelegations loadT pick targetFilePath []
    [{ Role := TARGETS, Parent := ROOT }]

/-- Invariant of the walk loop: the loaded-role list is duplicate-free,
disjoint from the visited set, and its length is bounded by the remaining
delegation budget. -/
theorem preOrderDepthFirstWalk_spec (maxDelegations : Int)
    (loadT : String → String → Except Unit (Metadata TargetsType))
    (pick : AList Bool → Option (String × Bool)) (targetFilePath : String) :
    ∀ (visited : List String) (stack : List RoleParentTuple),
      (preOrderDepthFirstWalk maxDelegations loadT pick targetFilePath visited stack).1.length
          ≤ (maxDelegations + 1).toNat - visited.length ∧
      (preOrderDepthFirstWalk maxDelegations loadT pick targetFilePath visited stack).1.Nodup ∧
      (∀ x ∈ (preOrderDepthFirstWalk maxDelegations loadT pick targetFilePath visited stack).1,
        x ∉ visited) := by
  intro visited stack
  induction visited, stack using preOrderDepthFirstWalk.induct maxDelegations loadT pick targetFilePath with
  | case1 visited h =>
    have hw : preOrderDepthFirstWalk maxDelegations loadT pick targetFilePath visited []
        = ([], .notFound) := by
      rw [preOrderDepthFirstWalk.eq_def]
      simp [h]
    simp [hw]
  | case2 visited h d rest hv ih =>
    have hw : preOrderDepthFirstWalk maxDelegations loadT pick targetFilePath visited (d :: rest)
        = preOrderDepthFirstWalk maxDelegations loadT pick targetFilePath visited rest := by
      rw [preOrderDepthFirstWalk.eq_def]
      simp [h, hv]
    rw [hw]
    exact ih
  | case3 visited h d rest hv u herr =>
    have hw : preOrderDepthFirstWalk maxDelegations loadT pick targetFilePath visited (d :: rest)
        = ([d.Role], .loadErr) := by
      rw [preOrderDepthFirstWalk.eq_def]
      simp [h, hv, herr]
    refine ⟨?_, ?_, ?_⟩
    · rw [hw]
      simp only [List.length_singleton]
      omega
    · rw [hw]
      exact List.nodup_singleton d.Role
    · rw [hw]
      intro x hx
      rw [List.mem_singleton] at hx
      exact hx ▸ hv
  | case4 visited h d rest hv targets hok target hfind =>
    have hw : preOrderDepthFirstWalk maxDelegations loadT pick targetFilePath visited (d :: rest)
        = ([d.Role], .found target) := by
      rw [preOrderDepthFirstWalk.eq_def]
      simp [h, hv, hok, hfind]
    refine ⟨?_, ?_, ?_⟩
    · rw [hw]
      simp only [List.length_singleton]
      omega
    · rw [hw]
      exact List.nodup_singleton d.Role
    · rw [hw]
      intro x hx
      rw [List.mem_singleton] at hx
      exact hx ▸ hv
  | case5 visited h d rest hv targets hok hfind ih =>
    have hw : preOrderDepthFirstWalk maxDelegations loadT pick targetFilePath visited (d :: rest)
        = (d.Role ::
            (preOrderDepthFirstWalk maxDelegations loadT pick targetFilePath
              (visited ++ [d.Role])
              (childStack rest d.Role targetFilePath pick targets.Signed.Delegations)).1,
           (preOrderDepthFirstWalk maxDelegations loadT pick targetFilePath
              (visited ++ [d.Role])
              (childStack rest d.Role targetFilePath pick targets.Signed.Delegations)).2) := by
      rw [preOrderDepthFirstWalk.eq_def]
      simp [h, hv, hok, hfind]
    obtain ⟨ihlen, ihnd, ihfresh⟩ := ih
    rw [List.length_append, List.length_singleton] at ihlen
    refine ⟨?_, ?_, ?_⟩
    · rw [hw]
      simp only [List.length_cons]
      omega
    · rw [hw]
      refine List.nodup_cons.mpr ⟨fun hmem => ?_, ihnd⟩
      exact (ihfresh d.Role hmem) (by simp)
    · rw [hw]
      intro x hx
      rcases List.mem_cons.mp hx with hx | hx
      · exact hx ▸ hv
      · have := ihfresh x hx
        rw [List.mem_append] at this
        exact fun hxv => this (Or.inl hxv)
  | case6 visited stack h =>
    have hw : preOrderDepthFirstWalk maxDelegations loadT pick targetFilePath visited stack
        = ([], .notFound) := by
      rw [preOrderDepthFirstWalk.eq_def]
      simp [h]
    simp [hw]

/-! ## Claim C6 -/

/-- C6 (amended): for every delegation graph (every `loadTargets` behaviour,
including cyclic delegation graphs, abstracted by `loadT`), every map
iteration order and every target path, the walk driven by `GetTargetInfo` is
total (the definition carries a termination proof), never loads a role twice
(the loaded-role list is duplicate-free), and loads at most
`MaxDelegations + 1` distinct roles — one more than the claimed bound,
because the loop guard is `len(visited) <= MaxDelegations`. -/
theorem claim_C6_theorem (maxDelegations : Int)
    (loadT : String → String → Except Unit (Metadata TargetsType))
    (pick : AList Bool → Option (String × Bool)) (targetFilePath : String) :
    (getTargetInfoWalk maxDelegations loadT pick targetFilePath).1.Nodup ∧
    (getTargetInfoWalk maxDelegations loadT pick targetFilePath).1.length
      ≤ (maxDelegations + 1).toNat := by
  obtain ⟨hlen, hnd, _⟩ := preOrderDepthFirstWalk_spec maxDelegations loadT pick targetFilePath
    [] [{ Role := TARGETS, Parent := ROOT }]
  exact ⟨hnd, by simpa using hlen⟩

/-- C6 fixture: every role loads as an empty targets document without
delegations. -/
def loadTEmptyC6 : String → String → Except Unit (Metadata TargetsType) :=
  fun _ _ => .ok
    { Signed := { Type_ := "targets", SpecVersion := SPECIFICATION_VERSION, Version := 1,
                  Expires := 0, Targets := [], Delegations := none },
      Signatures := [] }

/-- C6 counterexample: with `MaxDelegations = 0` the loop guard
`len(visited) <= 0` still admits one iteration, so the walk loads one role
(`targets`), contradicting the claimed bound of at most `MaxDelegations`
loaded roles. -/
theorem claim_C6_counterexample :
    (getTargetInfoWalk 0 loadTEmptyC6 (fun _ => none) "p").1 = ["targets"] ∧
    ¬ ((getTargetInfoWalk 0 loadTEmptyC6 (fun _ => none) "p").1.length ≤ (0 : Int).toNat) := by
  have stepA : preOrderDepthFirstWalk 0 loadTEmptyC6 (fun _ => none) "p" ["targets"] []
      = ([], .notFound) := by
    rw [preOrderDepthFirstWalk.eq_def]
    simp
  have h1 : getTargetInfoWalk 0 loadTEmptyC6 (fun _ => none) "p" = (["targets"], .notFound) := by
    rw [getTargetInfoWalk, preOrderDepthFirstWalk.eq_def]
    simp [loadTEmptyC6, lookupA, TARGETS, ROOT, childStack, stepA]
  rw [h1]
  exact ⟨rfl, by simp⟩

/-! ## Claim C1 -/

/-- C1 fixture: the target file that `role-B` lists for `dir1/foo`. -/
def tfC1 : TargetFiles := { Length := 1, Hashes := [("sha256", "hh")], Path := "dir1/foo" }

/-- C1 fixture: first-declared delegated role, non-terminating, trusted for
the literal path `dir1/foo` (a literal pattern so that the swapped-argument
matcher of `IsDelegatedPath` still matches and the walk itself is
exercised). -/
def roleAC1 : DelegatedRole :=
  { Name := "role-A", KeyIDs := [], Threshold := 1, Paths := ["dir1/foo"],
    PathHashPrefixes := [], Terminating := false }

/-- C1 fixture: second-declared delegated role for the same path. -/
def roleBC1 : DelegatedRole :=
  { Name := "role-B", KeyIDs := [], Threshold := 1, Paths := ["dir1/foo"],
    PathHashPrefixes := [], Terminating := false }

/-- C1 fixture: the top-level targets document delegating to `role-A` then
`role-B`, listing nothing itself. -/
def topTargetsC1 : Metadata TargetsType :=
  { Signed := { Type_ := "targets", SpecVersion := SPECIFICATION_VERSION, Version := 1,
                Expires := 0, Targets := [],
                Delegations := some { Keys := [], Roles := [roleAC1, roleBC1] } },
    Signatures := [] }

/-- C1 fixture: `role-A` lists nothing and delegates nothing. -/
def roleATargetsC1 : Metadata TargetsType :=
  { Signed := { Type_ := "targets", SpecVersion := SPECIFICATION_VERSION, Version := 1,
                Expires := 0, Targets := [], Delegations := none },
    Signatures := [] }

/-- C1 fixture: `role-B` lists `dir1/foo`. -/
def roleBTargetsC1 : Metadata TargetsType :=
  { Signed := { Type_ := "targets", SpecVersion := SPECIFICATION_VERSION, Version := 1,
                Expires := 0, Targets := [("dir1/foo", tfC1)], Delegations := none },
    Signatures := [] }

/-- C1 fixture: the delegation graph as a `loadTargets` behaviour. -/
def loadTC1 : String → String → Except Unit (Metadata TargetsType) := fun role _ =>
  if role = "targets" then .ok topTargetsC1
  else if role = "role-A" then .ok roleATargetsC1
  else if role = "role-B" then .ok roleBTargetsC1
  else .error ()

/-- C1: evaluation of the walk at the failing input.  `GetRolesForTarget`
matches both `role-A` and `role-B` for `dir1/foo` (both matched children), yet
the walk body — which `break`s after the first `range` entry of the map and
unconditionally discards the remaining stack — pushes only the first-yielded
child.  With the iteration order that yields the declaration-first entry
(`List.head?`, one legal Go map order), the walk loads `targets` then
`role-A`, and returns "not found" even though the non-terminating `role-A`
should have been followed by backtracking to `role-B`, which lists the
target. -/
theorem claim_C1_theorem :
    Delegations.GetRolesForTarget { Keys := [], Roles := [roleAC1, roleBC1] } "dir1/foo"
      = [("role-A", false), ("role-B", false)] ∧
    lookupA roleBTargetsC1.Signed.Targets "dir1/foo" = some tfC1 ∧
    getTargetInfoWalk 32 loadTC1 List.head? "dir1/foo"
      = (["targets", "role-A"], .notFound) := by
  refine ⟨by decide, by decide, ?_⟩
  have hroles : Delegations.GetRolesForTarget { Keys := [], Roles := [roleAC1, roleBC1] }
      "dir1/foo" = [("role-A", false), ("role-B", false)] := by decide
  have step3 : preOrderDepthFirstWalk 32 loadTC1 List.head? "dir1/foo"
      ["targets", "role-A"] [] = ([], .notFound) := by
    rw [preOrderDepthFirstWalk.eq_def]
    simp
  have step2 : preOrderDepthFirstWalk 32 loadTC1 List.head? "dir1/foo"
      ["targets"] [{ Role := "role-A", Parent := "targets" }] = (["role-A"], .notFound) := by
    rw [preOrderDepthFirstWalk.eq_def]
    simp [loadTC1, roleATargetsC1, lookupA, childStack, step3]
  rw [getTargetInfoWalk, preOrderDepthFirstWalk.eq_def]
  simp [loadTC1, TARGETS, ROOT, topTargetsC1, lookupA, childStack, hroles, step2]

/-! ## Serialization and the canonical round-trip (`metadata` package) -/

/-- Modelled from the spec: the JSON wire format of §6.  The type-definitions
file with the struct tags and `encoding/json` itself are outside the provided
sources, so serialisation is modelled at the level of the parsed JSON
document tree (field names exactly as in §6, lower_snake_case under `signed`);
the byte-level text rendering is the external encoder's bijection and is
elided, as is the RFC 3339 rendering of instants (carried as integers). -/
inductive Json
  | null
  | bool (b : Bool)
  | num (n : Int)
  | str (s : String)
  | arr (l : List Json)
  | obj (l : List (String × Json))

/-- Lookup of an object field. -/
def jField (l : List (String × Json)) (k : String) : Option Json :=
  match l with
  | [] => none
  | (k', v) :: rest => if k' = k then some v else jField rest k

/-- Decode a JSON string. -/
def decStr : Json → Option String
  | .str s => some s
  | _ => none

/-- Decode a JSON array of strings. -/
def decStrList : Json → Option (List String)
  | .arr l => l.mapM decStr
  | _ => none

/-- Decode a JSON object as a string-keyed map with a value decoder. -/
def decMap {α : Type} (f : Json → Option α) : Json → Option (AList α)
  | .obj l => l.mapM (fun p => (f p.2).map (fun v => (p.1, v)))
  | _ => none

/-- Encode a hashes map (`algo → hex digest`). -/
def encodeHashes (h : Hashes) : Json :=
  .obj (h.map (fun p => (p.1, Json.str p.2)))

/-- Encode a key: `{keytype, scheme, keyval: {public}}`. -/
def encodeKey (k : Key) : Json :=
  .obj [("keytype", .str k.keytype), ("scheme", .str k.scheme),
        ("keyval", .obj [("public", .str k.public)])]

/-- Decode a key. -/
def decodeKey (j : Json) : Option Key :=
  match j with
  | .obj l =>
    match jField l "keytype", jField l "scheme", jField l "keyval" with
    | some (.str t), some (.str s), some (.obj kv) =>
      match jField kv "public" with
      | some (.str p) => some { keytype := t, scheme := s, public := p }
      | _ => none
    | _, _, _ => none
  | _ => none

/-- Encode a top-level role entry: `{keyids, threshold}`. -/
def encodeRole (r : Role) : Json :=
  .obj [("keyids", .arr (r.KeyIDs.map Json.str)), ("threshold", .num r.Threshold)]

/-- Decode a top-level role entry. -/
def decodeRole (j : Json) : Option Role :=
  match j with
  | .obj l =>
    match jField l "keyids", jField l "threshold" with
    | some jk, some (.num th) =>
      (decStrList jk).map (fun ks => { KeyIDs := ks, Threshold := th })
    | _, _ => none
  | _ => none

/-- Encode a `MetaFiles` entry; `length` and `hashes` carry `omitempty`. -/
def encodeMetaFiles (m : MetaFiles) : Json :=
  .obj ([("version", Json.num m.Version)]
    ++ (if m.Length ≠ 0 then [("length", Json.num m.Length)] else [])
    ++ (if m.Hashes.isEmpty then [] else [("hashes", encodeHashes m.Hashes)]))

/-- Decode a `MetaFiles` entry; absent `length`/`hashes` leave the Go zero
values. -/
def decodeMetaFiles (j : Json) : Option MetaFiles :=
  match j with
  | .obj l =>
    match jField l "version" with
    | some (.num v) =>
      match (match jField l "length" with
             | some (.num n) => some n
             | none => some 0
             | some _ => none),
            (match jField l "hashes" with
             | some jh => decMap decStr jh
             | none => some []) with
      | some n, some h => some { Version := v, Length := n, Hashes := h }
      | _, _ => none
    | _ => none
  | _ => none

/-- Encode a `TargetFiles` value: `{length, hashes}`; the path is the map key
on the wire (the struct's path field is not serialised). -/
def encodeTargetFiles (t : TargetFiles) : Json :=
  .obj [("length", .num t.Length), ("hashes", encodeHashes t.Hashes)]

/-- Decode a `TargetFiles` value; absent fields leave the Go zero values. -/
def decodeTargetFiles (j : Json) : Option TargetFiles :=
  match j with
  | .obj l =>
    match (match jField l "length" with
           | some (.num n) => some n
           | none => some 0
           | some _ => none),
          (match jField l "hashes" with
           | some jh => decMap decStr jh
           | none => some []) with
    | some n, some h => some { Length := n, Hashes := h, Path := "" }
    | _, _ => none
  | _ => none

/-- Encode a delegated role; `paths` and `path_hash_prefixes` carry
`omitempty`. -/
def encodeDelegatedRole (r : DelegatedRole) : Json :=
  .obj ([("name", Json.str r.Name), ("keyids", Json.arr (r.KeyIDs.map Json.str)),
         ("threshold", Json.num r.Threshold)]
    ++ (if r.Paths.isEmpty then [] else [("paths", Json.arr (r.Paths.map Json.str))])
    ++ (if r.PathHashPrefixes.isEmpty then []
        else [("path_hash_prefixes", Json.arr (r.PathHashPrefixes.map Json.str))])
    ++ [("terminating", Json.bool r.Terminating)])

/-- Decode a delegated role. -/
def decodeDelegatedRole (j : Json) : Option DelegatedRole :=
  match j with
  | .obj l =>
    match jField l "name", jField l "keyids", jField l "threshold",
          jField l "terminating" with
    | some (.str n), some jk, some (.num th), some (.bool tm) =>
      match decStrList jk,
            (match jField l "paths" with
             | some jp => decStrList jp
             | none => some []),
            (match jField l "path_hash_prefixes" with
             | some jp => decStrList jp
             | none => some []) with
      | some ks, some ps, some php =>
        some { Name := n, KeyIDs := ks, Threshold := th, Paths := ps,
               PathHashPrefixes := php, Terminating := tm }
      | _, _, _ => none
    | _, _, _, _ => none
  | _ => none

/-- Encode a delegations block: `{keys, roles}`. -/
def encodeDelegations (d : Delegations) : Json :=
  .obj [("keys", .obj (d.Keys.map (fun p => (p.1, encodeKey p.2)))),
        ("roles", .arr (d.Roles.map encodeDelegatedRole))]

/-- Decode a delegations block. -/
def decodeDelegations (j : Json) : Option Delegations :=
  match j with
  | .obj l =>
    match jField l "keys", jField l "roles" with
    | some jk, some (.arr jr) =>
      match decMap decodeKey jk, jr.mapM decodeDelegatedRole with
      | some keys, some roles => some { Keys := keys, Roles := roles }
      | _, _ => none
    | _, _ => none
  | _ => none

/-- Encode the signed body of root metadata. -/
def encodeRootSigned (s : RootType) : Json :=
  .obj [("_type", .str s.Type_), ("spec_version", .str s.SpecVersion),
        ("version", .num s.Version), ("expires", .num s.Expires),
        ("keys", .obj (s.Keys.map (fun p => (p.1, encodeKey p.2)))),
        ("roles", .obj (s.Roles.map (fun p => (p.1, encodeRole p.2)))),
        ("consistent_snapshot", .bool s.ConsistentSnapshot)]

/-- Decode the signed body of root metadata. -/
def decodeRootSigned (j : Json) : Option RootType :=
  match j with
  | .obj l =>
    match jField l "_type", jField l "spec_version", jField l "version",
          jField l "expires", jField l "keys", jField l "roles",
          jField l "consistent_snapshot" with
    | some (.str t), some (.str sv), some (.num v), some (.num e), some jk, some jr,
        some (.bool cs) =>
      match decMap decodeKey jk, decMap decodeRole jr with
      | some keys, some roles =>
        some { Type_ := t, SpecVersion := sv, Version := v, Expires := e, Keys := keys,
               Roles := roles, ConsistentSnapshot := cs }
      | _, _ => none
    | _, _, _, _, _, _, _ => none
  | _ => none

/-- Encode the signed body of snapshot metadata. -/
def encodeSnapshotSigned (s : SnapshotType) : Json :=
  .obj [("_type", .str s.Type_), ("spec_version", .str s.SpecVersion),
        ("version", .num s.Version), ("expires", .num s.Expires),
        ("meta", .obj (s.Meta.map (fun p => (p.1, encodeMetaFiles p.2))))]

/-- Decode the signed body of snapshot metadata. -/
def decodeSnapshotSigned (j : Json) : Option SnapshotType :=
  match j with
  | .obj l =>
    match jField l "_type", jField l "spec_version", jField l "version",
          jField l "expires", jField l "meta" with
    | some (.str t), some (.str sv), some (.num v), some (.num e), some jm =>
      (decMap decodeMetaFiles jm).map (fun meta =>
        { Type_ := t, SpecVersion := sv, Version := v, Expires := e, Meta := meta })
    | _, _, _, _, _ => none
  | _ => none

/-- Encode the signed body of timestamp metadata. -/
def encodeTimestampSigned (s : TimestampType) : Json :=
  .obj [("_type", .str s.Type_), ("spec_version", .str s.SpecVersion),
        ("version", .num s.Version), ("expires", .num s.Expires),
        ("meta", .obj (s.Meta.map (fun p => (p.1, encodeMetaFiles p.2))))]

/-- Decode the signed body of timestamp metadata. -/
def decodeTimestampSigned (j : Json) : Option TimestampType :=
  match j with
  | .obj l =>
    match jField l "_type", jField l "spec_version", jField l "version",
          jField l "expires", jField l "meta" with
    | some (.str t), some (.str sv), some (.num v), some (.num e), some jm =>
      (decMap decodeMetaFiles jm).map (fun meta =>
        { Type_ := t, SpecVersion := sv, Version := v, Expires := e, Meta := meta })
    | _, _, _, _, _ => none
  | _ => none

/-- Encode the signed body of targets metadata; `delegations` carries
`omitempty` (a nil pointer is omitted). -/
def encodeTargetsSigned (s : TargetsType) : Json :=
  .obj ([("_type", Json.str s.Type_), ("spec_version", Json.str s.SpecVersion),
         ("version", Json.num s.Version), ("expires", Json.num s.Expires),
         ("targets", Json.obj (s.Targets.map (fun p => (p.1, encodeTargetFiles p.2))))]
    ++ (match s.Delegations with
        | none => []
        | some d => [("delegations", encodeDelegations d)]))

/-- Decode the signed body of targets metadata. -/
def decodeTargetsSigned (j : Json) : Option TargetsType :=
  match j with
  | .obj l =>
    match jField l "_type", jField l "spec_version", jField l "version",
          jField l "expires", jField l "targets" with
    | some (.str t), some (.str sv), some (.num v), some (.num e), some jt =>
      match decMap decodeTargetFiles jt,
            (match jField l "delegations" with
             | none => some none
             | some jd => (decodeDelegations jd).map some) with
      | some targets, some dlg =>
        some { Type_ := t, SpecVersion := sv, Version := v, Expires := e,
               Targets := targets, Delegations := dlg }
      | _, _ => none
    | _, _, _, _, _ => none
  | _ => none

/-- Encode a signature entry: `{keyid, sig}`. -/
def encodeSignature (s : Signature) : Json :=
  .obj [("keyid", .str s.KeyID), ("sig", .str s.Sig)]

/-- Decode a signature entry. -/
def decodeSignature (j : Json) : Option Signature :=
  match j with
  | .obj l =>
    match jField l "keyid", jField l "sig" with
    | some (.str k), some (.str s) => some { KeyID := k, Sig := s }
    | _, _ => none
  | _ => none

/-- Encode the metadata envelope (`json.Marshal(*meta)`, the body of
`ToBytes`). -/
def encodeMetadata {T : Type} (encSigned : T → Json) (m : Metadata T) : Json :=
  .obj [("signed", encSigned m.Signed),
        ("signatures", .arr (m.Signatures.map encodeSignature))]

/-- Decode the metadata envelope (`json.Unmarshal` into `Metadata[T]`). -/
def decodeMetadata {T : Type} (decSigned : Json → Option T) (j : Json) :
    Option (Metadata T) :=
  match j with
  | .obj l =>
    match jField l "signed", jField l "signatures" with
    | some js, some (.arr ls) =>
      match decSigned js, ls.mapM decodeSignature with
      | some s, some sigs => some { Signed := s, Signatures := sigs }
      | _, _ => none
    | _, _ => none
  | _ => none

/-- `checkType` from the source: read `signed._type` from the raw document and
compare it with the expected role tag, failing with `ErrValue` on mismatch.
A missing or mis-typed field is a Go type-assertion panic in the source; the
claims exercise only well-shaped documents, and the shape failure is folded
into `errUnmarshal` here. -/
def checkType (expected : String) (j : Json) : Except MErr Unit :=
  match j with
  | .obj l =>
    match jField l "signed" with
    | some (.obj ls) =>
      match jField ls "_type" with
      | some (.str t) => if expected = t then .ok () else .error .errValue
      | _ => .error .errUnmarshal
    | _ => .error .errUnmarshal
  | _ => .error .errUnmarshal

/-- The scan of `checkUniqueSignatures`: walk the signature list keeping the
key ids seen so far, failing with `ErrValue` on a repeat. -/
def checkUniqueSignaturesLoop : List Signature → List String → Except MErr Unit
  | [], _ => .ok ()
  | sig :: rest, seen =>
    if sig.KeyID ∈ seen then .error .errValue
    else checkUniqueSignaturesLoop rest (seen ++ [sig.KeyID])

/-- `checkUniqueSignatures` from the source. -/
def checkUniqueSignatures {T : Type} (meta : Metadata T) : Except MErr Unit :=
  checkUniqueSignaturesLoop meta.Signatures []

/-- `fromBytes[T]` from the source: check the `_type` tag, unmarshal (decoder
failure models a `json.Unmarshal` error) and reject duplicate signature key
ids. -/
def fromBytes {T : Type} (expected : String) (decSigned : Json → Option T) (j : Json) :
    Except MErr (Metadata T) :=
  match checkType expected j with
  | .error e => .error e
  | .ok _ =>
    match decodeMetadata decSigned j with
    | none => .error .errUnmarshal
    | some m =>
      match checkUniqueSignatures m with
      | .error e => .error e
      | .ok _ => .ok m

/-- `ToBytes` instantiated at root metadata. -/
def toBytesRoot (m : Metadata RootType) : Json := encodeMetadata encodeRootSigned m

/-- `FromBytes` instantiated at root metadata. -/
def fromBytesRoot (j : Json) : Except MErr (Metadata RootType) :=
  fromBytes ROOT decodeRootSigned j

/-- `ToBytes` instantiated at snapshot metadata. -/
def toBytesSnapshot (m : Metadata SnapshotType) : Json :=
  encodeMetadata encodeSnapshotSigned m

/-- `FromBytes` instantiated at snapshot metadata. -/
def fromBytesSnapshot (j : Json) : Except MErr (Metadata SnapshotType) :=
  fromBytes SNAPSHOT decodeSnapshotSigned j

/-- `ToBytes` instantiated at timestamp metadata. -/
def toBytesTimestamp (m : Metadata TimestampType) : Json :=
  encodeMetadata encodeTimestampSigned m

/-- `FromBytes` instantiated at timestamp metadata. -/
def fromBytesTimestamp (j : Json) : Except MErr (Metadata TimestampType) :=
  fromBytes TIMESTAMP decodeTimestampSigned j

/-- `ToBytes` instantiated at targets metadata. -/
def toBytesTargets (m : Metadata TargetsType) : Json :=
  encodeMetadata encodeTargetsSigned m

/-- `FromBytes` instantiated at targets metadata. -/
def fromBytesTargets (j : Json) : Except MErr (Metadata TargetsType) :=
  fromBytes TARGETS decodeTargetsSigned j

/-! ## In-memory constructors (`metadata` package) -/

/-- The `Root` constructor: version 1, the four top-level roles inserted in
the order ROOT, SNAPSHOT, TARGETS, TIMESTAMP, each with empty key ids and
threshold 1, empty key store, `consistent_snapshot` true, empty signatures. -/
def Root (expires : Int) : Metadata RootType :=
  { Signed := { Type_ := ROOT, SpecVersion := SPECIFICATION_VERSION, Version := 1,
                Expires := expires, Keys := [],
                Roles := [(ROOT, { KeyIDs := [], Threshold := 1 }),
                          (SNAPSHOT, { KeyIDs := [], Threshold := 1 }),
                          (TARGETS, { KeyIDs := [], Threshold := 1 }),
                          (TIMESTAMP, { KeyIDs := [], Threshold := 1 })],
                ConsistentSnapshot := true },
    Signatures := [] }

/-- The `Snapshot` constructor: version 1 and a `targets.json` meta entry at
version 1. -/
def Snapshot (expires : Int) : Metadata SnapshotType :=
  { Signed := { Type_ := SNAPSHOT, SpecVersion := SPECIFICATION_VERSION, Version := 1,
                Expires := expires,
                Meta := [("targets.json", { Version := 1, Length := 0, Hashes := [] })] },
    Signatures := [] }

/-- The `Timestamp` constructor: version 1 and a `snapshot.json` meta entry at
version 1. -/
def Timestamp (expires : Int) : Metadata TimestampType :=
  { Signed := { Type_ := TIMESTAMP, SpecVersion := SPECIFICATION_VERSION, Version := 1,
                Expires := expires,
                Meta := [("snapshot.json", { Version := 1, Length := 0, Hashes := [] })] },
    Signatures := [] }

/-- The `Targets` constructor: version 1, an empty targets map and no
delegations. -/
def Targets (expires : Int) : Metadata TargetsType :=
  { Signed := { Type_ := TARGETS, SpecVersion := SPECIFICATION_VERSION, Version := 1,
                Expires := expires, Targets := [], Delegations := none },
    Signatures := [] }

/-! ## Claim C9 -/

/-- C9: for every expiry instant, deserialising the serialisation of each
in-memory constructor output (not yet signed) succeeds — the `_type` tag
matches and the empty signature list is trivially duplicate-free — and
returns a structurally equal document (in particular an equal signed part). -/
theorem claim_C9_theorem : ∀ t : Int,
    fromBytesRoot (toBytesRoot (Root t)) = .ok (Root t) ∧
    fromBytesSnapshot (toBytesSnapshot (Snapshot t)) = .ok (Snapshot t) ∧
    fromBytesTimestamp (toBytesTimestamp (Timestamp t)) = .ok (Timestamp t) ∧
    fromBytesTargets (toBytesTargets (Targets t)) = .ok (Targets t) := by
  intro t
  refine ⟨rfl, rfl, rfl, rfl⟩

end GoTUF
